import Mathlib

/-!
Shallow embedding of the aggregation logic of the MCP analytics servers
(`src/shopify.ts` — Shopify sales analytics, `src/ga4.ts` — GA4 funnel/CVR
analysis), together with theorems checking the natural-language specification
against it.

Modelling conventions:
* Monetary amounts (the JS numbers obtained by `parseFloat` of the upstream
  amount strings) are modelled as rationals `ℚ`.
* JS objects used as string-keyed maps are modelled as association lists
  `List (String × β)` keeping first-insertion key order; `upsert` embeds the
  `if (!m[k]) m[k] = init; m[k] op= v` update pattern, `setA` embeds
  `Map.set` (replace in place, append when new).
* Timestamps are seconds since the Unix epoch (`ℤ`); the behaviour of the JS
  `Date` accessors is embedded via the proleptic-Gregorian civil-date
  conversion, parametrised by the process timezone offset (minutes east of
  UTC, no DST) because `getFullYear`/`getMonth`/`getDate`/`getDay` are
  local-time accessors while `toISOString` is UTC.
* `number.toFixed(2)` followed by `parseFloat` is modelled as rounding
  half-up at two decimals (`toFixed2`).
-/

namespace MCP

/-- Lookup in a JS-object-as-map association list. -/
def lookupA {β : Type} (m : List (String × β)) (k : String) : Option β :=
  (m.find? (fun kv => kv.1 = k)).map (fun kv => kv.2)

/-- The JS update pattern `if (!m[k]) m[k] = init; m[k] = f(m[k])`:
keys keep their first-insertion position, a new key is appended.
(For numeric maps the falsy re-initialisation of a present `0` value is the
identity, so this single definition covers every map update in the source.) -/
def upsert {β : Type} (k : String) (init : β) (f : β → β) :
    List (String × β) → List (String × β)
  | [] => [(k, f init)]
  | (k', v') :: rest =>
      if k' = k then (k', f v') :: rest else (k', v') :: upsert k init f rest

/-- JS `Map.set k v`: replace in place when the key is present, append
otherwise. -/
def setA {α β : Type} [DecidableEq α] (m : List (α × β)) (k : α) (v : β) :
    List (α × β) :=
  match m with
  | [] => [(k, v)]
  | (k', v') :: rest =>
      if k' = k then (k', v) :: rest else (k', v') :: setA rest k v

/-- Rounding half-up at two decimals: the model of JS
`parseFloat(x.toFixed(2))` on the (non-negative) values of this program. -/
def toFixed2 (q : ℚ) : ℚ := (⌊q * 100 + 1 / 2⌋ : ℤ) / 100

/-! ### Shopify: order records (`get_sales_summary` query shape) -/

/-- One order node of the `GetOrdersForSalesSummary` GraphQL response
(src/shopify.ts:209-257): the money fields, already parsed to numbers. -/
structure SummaryOrder where
  totalPrice : ℚ
  currencyCode : String
  totalDiscounts : ℚ
  totalShipping : ℚ
  totalTax : ℚ
  deriving DecidableEq, Repr

/-- The mutable `summary` accumulator of `get_sales_summary`
(src/shopify.ts:290-299). -/
structure SalesSummary where
  totalOrders : ℕ
  totalSales : ℚ
  averageOrderValue : ℚ
  totalDiscounts : ℚ
  totalShipping : ℚ
  totalTax : ℚ
  salesByCurrency : List (String × ℚ)
  salesByStatus : List (String × ℚ)
  deriving DecidableEq, Repr

/-- One iteration of the `allOrders.forEach` accumulation of
`get_sales_summary` (src/shopify.ts:301-328). -/
def summaryAccum (s : SalesSummary) (o : SummaryOrder) : SalesSummary :=
  { s with
    totalSales := s.totalSales + o.totalPrice
    totalDiscounts := s.totalDiscounts + o.totalDiscounts
    totalShipping := s.totalShipping + o.totalShipping
    totalTax := s.totalTax + o.totalTax
    salesByCurrency :=
      upsert o.currencyCode 0 (fun x => x + o.totalPrice) s.salesByCurrency
    salesByStatus :=
      upsert "other" 0 (fun x => x + o.totalPrice) s.salesByStatus }

/-- The summary computation of `get_sales_summary` (src/shopify.ts:290-332):
initial accumulator with `totalOrders = allOrders.length`, the `forEach`
accumulation, then the explicit zero-guarded average. -/
def computeSummary (orders : List SummaryOrder) : SalesSummary :=
  let s0 : SalesSummary :=
    { totalOrders := orders.length, totalSales := 0, averageOrderValue := 0,
      totalDiscounts := 0, totalShipping := 0, totalTax := 0,
      salesByCurrency := [], salesByStatus := [] }
  let s := orders.foldl summaryAccum s0
  { s with
    averageOrderValue :=
      if s.totalOrders > 0 then s.totalSales / (s.totalOrders : ℚ) else 0 }

/-! ### Shopify: the `get_sales_summary` fetch loop -/

/-- One page of the upstream `orders` GraphQL connection
(src/shopify.ts:251-254): records plus `pageInfo`. -/
structure OrdersPage where
  orders : List SummaryOrder
  hasNextPage : Bool
  endCursor : Option String

/-- Embedding of the `while (hasNextPage)` loop of `get_sales_summary`
(src/shopify.ts:265-287).  The loop body fetches the page at `endCursor`,
appends its records, updates `hasNextPage` / `endCursor` and then executes
an unconditional `break` ("現時点では最初のページのみ取得"), so control never
reaches a second iteration: the embedding is the loop body guarded by the
entry condition, with no recursive call in the `break` position. -/
def fetchLoop (upstream : Option String → OrdersPage)
    (hasNextPage : Bool) (endCursor : Option String)
    (allOrders : List SummaryOrder) : List SummaryOrder :=
  if hasNextPage then
    let page := upstream endCursor
    let allOrders' := allOrders ++ page.orders
    -- hasNextPage := page.hasNextPage; endCursor := page.endCursor; break
    allOrders'
  else
    allOrders

/-- The full record fetch of `get_sales_summary`: loop state initialised to
`hasNextPage = true`, `endCursor = null`, `allOrders = []`
(src/shopify.ts:266-268). -/
def salesSummaryFetch (upstream : Option String → OrdersPage) :
    List SummaryOrder :=
  fetchLoop upstream true none []

/-- The result type of the spec's Record-Source contract: records plus the
truncation flag. -/
structure FetchResult where
  records : List SummaryOrder
  truncated : Bool
  deriving DecidableEq

/-- Modelled from the spec: `fetchAll(filter, pageSize, maxPages)` of §4.1
(no such function exists in the source; its pagination loop is `fetchLoop`).
Follows pagination cursors until the upstream reports no further pages or
`maxPages` is reached; reaching the cap sets `truncated := true`. -/
def fetchAll (upstream : Option String → OrdersPage) :
    Nat → Option String → FetchResult
  | 0, _ => { records := [], truncated := true }
  | maxPages + 1, cursor =>
      let page := upstream cursor
      if page.hasNextPage then
        let rest := fetchAll upstream maxPages page.endCursor
        { records := page.orders ++ rest.records, truncated := rest.truncated }
      else
        { records := page.orders, truncated := false }

/-! ### The JS `Date` model and the `get_sales_trends` period keys -/

/-- Proleptic-Gregorian civil date `(year, month, day)` of a day count
relative to 1970-01-01 — the calendar arithmetic underlying the JS `Date`
accessors (days-to-civil conversion, era-based). -/
def civilFromDays (z0 : ℤ) : ℤ × ℤ × ℤ :=
  let z := z0 + 719468
  let era := z / 146097
  let doe := z - era * 146097
  let yoe := (doe - doe / 1460 + doe / 36524 - doe / 146096) / 365
  let y := yoe + era * 400
  let doy := doe - (365 * yoe + yoe / 4 - yoe / 100)
  let mp := (5 * doy + 2) / 153
  let d := doy - (153 * mp + 2) / 5 + 1
  let m := if mp < 10 then mp + 3 else mp - 9
  (if m ≤ 2 then y + 1 else y, m, d)

/-- Left-pad a number to two digits, as `String(x).padStart(2, "0")` and the
date components of `toISOString`. -/
def pad2 (n : ℕ) : String :=
  if n < 10 then "0" ++ toString n else toString n

/-- Left-pad a year to four digits, as in `toISOString`. -/
def pad4 (n : ℕ) : String :=
  if n < 10 then "000" ++ toString n
  else if n < 100 then "00" ++ toString n
  else if n < 1000 then "0" ++ toString n
  else toString n

/-- `YYYY-MM-DD` rendering of the civil date of a day count: the model of
`date.toISOString().split("T")[0]`. -/
def dateString (d : ℤ) : String :=
  let c := civilFromDays d
  pad4 c.1.toNat ++ "-" ++ pad2 c.2.1.toNat ++ "-" ++ pad2 c.2.2.toNat

/-- `YYYY-MM` rendering of the civil date of a day count: the model of
the `monthly` template string of src/shopify.ts:585-587. -/
def ymString (d : ℤ) : String :=
  let c := civilFromDays d
  toString c.1 ++ "-" ++ pad2 c.2.1.toNat

/-- The day count (days since the epoch) holding an epoch-seconds instant:
floor division, as the `Date` internals. -/
def daysOf (t : ℤ) : ℤ := t / 86400

/-- JS `getDay()` of a day count: 0 = Sunday (1970-01-01 was a Thursday). -/
def dayOfWeek (d : ℤ) : ℤ := (d + 4) % 7

/-- The period-key `switch` of `get_sales_trends` (src/shopify.ts:568-591),
parametrised by the process timezone offset `tz` in minutes east of UTC
(fixed offset, no DST):
* `daily` — `createdAt.toISOString().split("T")[0]`, the UTC date;
* `weekly` — `weekStart.setDate(getDate() - getDay())` shifts the local
  calendar date back by the local day-of-week (`setDate` normalisation makes
  this an instant shift of exactly `getDay()` days under a fixed offset),
  then `toISOString` renders the UTC date of that instant;
* `monthly` — template string from `getFullYear()` / `getMonth() + 1`,
  the local-time calendar accessors;
* the `default` branch repeats the `daily` computation. -/
def periodKeyAt (tz : ℤ) (t : ℤ) (interval : String) : String :=
  let localDays := daysOf (t + tz * 60)
  if interval = "daily" then dateString (daysOf t)
  else if interval = "weekly" then
    dateString (daysOf (t - dayOfWeek localDays * 86400))
  else if interval = "monthly" then ymString localDays
  else dateString (daysOf t)

/-! ### Shopify: `get_sales_trends` buckets -/

/-- One order node of the `GetOrdersForSalesTrends` response
(src/shopify.ts:524-547): creation instant (epoch seconds) and total price. -/
structure TrendOrder where
  createdAt : ℤ
  totalPrice : ℚ
  deriving DecidableEq, Repr

/-- One bucket of the `salesByInterval` record (src/shopify.ts:559-566). -/
structure TrendBucket where
  period : String
  totalSales : ℚ
  orderCount : ℕ
  deriving DecidableEq, Repr

/-- One iteration of the `orders.forEach` bucket accumulation of
`get_sales_trends` (src/shopify.ts:568-603). -/
def trendsAccum (tz : ℤ) (interval : String)
    (m : List (String × TrendBucket)) (o : TrendOrder) :
    List (String × TrendBucket) :=
  let k := periodKeyAt tz o.createdAt interval
  upsert k { period := k, totalSales := 0, orderCount := 0 }
    (fun b => { b with totalSales := b.totalSales + o.totalPrice,
                       orderCount := b.orderCount + 1 }) m

/-- The `salesByInterval` bucket map of `get_sales_trends`. -/
def salesByInterval (tz : ℤ) (interval : String)
    (orders : List TrendOrder) : List (String × TrendBucket) :=
  orders.foldl (trendsAccum tz interval) []

/-! ### Sorting (the JS stable `Array.prototype.sort`) -/

/-- `Object.values` of a JS object-as-map: the values in key-insertion
order. -/
def valuesA {β : Type} (m : List (String × β)) : List β :=
  m.map (fun kv => kv.2)

/-- Stable insertion step for a descending numeric-key sort: an element is
placed before the first strictly-smaller key, after equal keys already in
place is never needed because insertion proceeds right-to-left — the element
keeps its position relative to equal keys, matching the stable JS sort with
comparator `(a, b) => b.key - a.key`. -/
def insertDescBy {α : Type} (key : α → ℚ) (a : α) : List α → List α
  | [] => [a]
  | b :: l => if key b ≤ key a then a :: b :: l else b :: insertDescBy key a l

/-- Stable descending sort by a numeric key (the model of
`.sort((a, b) => b.totalSales - a.totalSales)`, src/shopify.ts:480). -/
def sortDescBy {α : Type} (key : α → ℚ) : List α → List α
  | [] => []
  | a :: l => insertDescBy key a (sortDescBy key l)

/-- Stable insertion step for an ascending string-key sort. -/
def insertAscBy {α : Type} (key : α → String) (a : α) : List α → List α
  | [] => [a]
  | b :: l => if key a ≤ key b then a :: b :: l else b :: insertAscBy key a l

/-- Stable ascending sort by a string key (the model of
`.sort((a, b) => a.period.localeCompare(b.period))`, src/shopify.ts:607,
with codepoint collation). -/
def sortAscBy {α : Type} (key : α → String) : List α → List α
  | [] => []
  | a :: l => insertAscBy key a (sortAscBy key l)

/-! ### Shopify: `get_sales_by_product` -/

/-- The `product { id title }` sub-object of a line item
(src/shopify.ts:405-408), absent when the product was deleted. -/
structure ProductRef where
  id : String
  title : String
  deriving DecidableEq, Repr

/-- One line-item node of the `GetOrdersForProductSales` response
(src/shopify.ts:395-415), money already parsed. -/
structure LineItem where
  title : String
  quantity : ℤ
  originalTotal : ℚ
  currencyCode : String
  product : Option ProductRef
  deriving DecidableEq, Repr

/-- `item.product?.id || item.title` (src/shopify.ts:455): the JS `||`
falls back on a missing product and on an empty id string. -/
def itemProductId (item : LineItem) : String :=
  match item.product with
  | some p => if p.id = "" then item.title else p.id
  | none => item.title

/-- `item.product?.title || item.title` (src/shopify.ts:456). -/
def itemProductTitle (item : LineItem) : String :=
  match item.product with
  | some p => if p.title = "" then item.title else p.title
  | none => item.title

/-- One bucket of the `productSales` record (src/shopify.ts:439-449). -/
structure ProductBucket where
  productId : String
  productTitle : String
  totalQuantity : ℤ
  totalSales : ℚ
  currencyCode : String
  orders : ℕ
  deriving DecidableEq, Repr

/-- One iteration of the inner `lineItems.forEach` accumulation
(src/shopify.ts:454-475): create the zeroed bucket when absent, then add
quantity, price and a line-item count. -/
def productAccumItem (m : List (String × ProductBucket)) (item : LineItem) :
    List (String × ProductBucket) :=
  let pid := itemProductId item
  upsert pid
    { productId := pid, productTitle := itemProductTitle item,
      totalQuantity := 0, totalSales := 0,
      currencyCode := item.currencyCode, orders := 0 }
    (fun b =>
      { b with totalQuantity := b.totalQuantity + item.quantity,
               totalSales := b.totalSales + item.originalTotal,
               orders := b.orders + 1 }) m

/-- The `productSales` map built by the nested
`orders.forEach / lineItems.forEach` loops (src/shopify.ts:451-476); each
order contributes its list of line items. -/
def productSalesMap (orders : List (List LineItem)) :
    List (String × ProductBucket) :=
  orders.foldl (fun m items => items.foldl productAccumItem m) []

/-- One element of the formatted `sortedProductSales` output
(src/shopify.ts:482-488): the spread bucket with rounded `totalSales` and
the derived `averageOrderValue`. -/
structure ProductOut where
  productId : String
  productTitle : String
  totalQuantity : ℤ
  totalSales : ℚ
  currencyCode : String
  orders : ℕ
  averageOrderValue : ℚ
  deriving DecidableEq, Repr

/-- The `.map` step of src/shopify.ts:482-488: `averageOrderValue` is
computed from the unrounded `totalSales` of the bucket. -/
def productFormat (b : ProductBucket) : ProductOut :=
  { productId := b.productId, productTitle := b.productTitle,
    totalQuantity := b.totalQuantity,
    totalSales := toFixed2 b.totalSales,
    currencyCode := b.currencyCode, orders := b.orders,
    averageOrderValue := toFixed2 (b.totalSales / (b.orders : ℚ)) }

/-- `sortedProductSales` (src/shopify.ts:479-488): values of the bucket map,
sorted by `totalSales` descending, first `limit` entries, formatted. -/
def sortedProductSales (orders : List (List LineItem)) (limit : ℕ) :
    List ProductOut :=
  (((sortDescBy (fun b => b.totalSales) (valuesA (productSalesMap orders))).take
    limit).map productFormat)

/-- The `get_sales_by_product` handler's use of its `limit` argument
(src/shopify.ts:374): destructuring default `limit = 10` when the caller
passes none. -/
def getSalesByProduct (limit : Option ℕ) (orders : List (List LineItem)) :
    List ProductOut :=
  sortedProductSales orders (limit.getD 10)

/-! ### Shopify: the `get_sales_trends` handler -/

/-- One element of the formatted `sortedSalesTrends` output
(src/shopify.ts:608-614); `averageOrderValue` again derives from the
unrounded bucket total. -/
structure TrendOut where
  period : String
  totalSales : ℚ
  orderCount : ℕ
  averageOrderValue : ℚ
  deriving DecidableEq, Repr

/-- The `.map` step of src/shopify.ts:608-614. -/
def trendFormat (b : TrendBucket) : TrendOut :=
  { period := b.period, totalSales := toFixed2 b.totalSales,
    orderCount := b.orderCount,
    averageOrderValue := toFixed2 (b.totalSales / (b.orderCount : ℚ)) }

/-- `sortedSalesTrends` (src/shopify.ts:606-614). -/
def sortedSalesTrends (tz : ℤ) (interval : String)
    (orders : List TrendOrder) : List TrendOut :=
  ((sortAscBy (fun b => b.period)
    (valuesA (salesByInterval tz interval orders))).map trendFormat)

/-- The MCP error codes raised by the handlers. -/
inductive ErrCode
  | invalidRequest
  | invalidParams
  | internalError
  deriving DecidableEq, Repr

/-- The arguments of a `get_sales_trends` call, each possibly absent. -/
structure TrendsArgs where
  startDate : Option String
  endDate : Option String
  interval : Option String
  deriving DecidableEq, Repr

/-- JS falsiness of an optional string argument: absent or empty. -/
def falsyStr (o : Option String) : Bool :=
  o.isNone || o == some ""

/-- Outcome of one `get_sales_trends` call: the upstream GraphQL query
filters it issued, and its result or error. -/
structure TrendsRun where
  issuedQueries : List String
  result : Except ErrCode (List TrendOut)

/-- The `get_sales_trends` tool branch (src/shopify.ts:505-628), for a
configured client: required-argument check (src/shopify.ts:508-513), then
interval validation (src/shopify.ts:516-521), both raising
`ErrorCode.InvalidParams` before any upstream query; only past validation is
the query filter built and the single upstream query issued. -/
def getSalesTrends (tz : ℤ) (args : TrendsArgs)
    (upstream : String → List TrendOrder) : TrendsRun :=
  if falsyStr args.startDate || falsyStr args.endDate ||
      falsyStr args.interval then
    { issuedQueries := [], result := .error .invalidParams }
  else
    let interval := args.interval.getD ""
    if !(["daily", "weekly", "monthly"].contains interval) then
      { issuedQueries := [], result := .error .invalidParams }
    else
      let startDate := args.startDate.getD ""
      let endDate := args.endDate.getD ""
      let queryFilter := "created_at:>=" ++ startDate ++ " created_at:<=" ++
        endDate ++ " status:any"
      let orders := upstream queryFilter
      { issuedQueries := [queryFilter],
        result := .ok (sortedSalesTrends tz interval orders) }

/-! ### GA4: `getEventCount`, `calculate_cvr`, `analyze_user_journey` -/

/-- Generic association-list lookup (for the `Map<string|null, number>`
results of `getEventCount`). -/
def lookupM {α β : Type} [DecidableEq α] (m : List (α × β)) (k : α) :
    Option β :=
  (m.find? (fun kv => kv.1 = k)).map (fun kv => kv.2)

/-- One row of a GA4 `runReport` response as consumed by `getEventCount`
(src/ga4.ts:295-313): first dimension value (possibly absent — `?? "unknown"`
applies) and the parsed `eventCount` metric. -/
structure GARow where
  dimensionValue : Option String
  count : ℕ
  deriving DecidableEq, Repr

/-- The `getEventCount` helper (src/ga4.ts:272-327, duplicated at
src/ga4.ts:425-481): without a (truthy) dimension it returns the single
`null ↦ total` entry; with one it `Map.set`s each row keyed by its dimension
value (`?? "unknown"`). -/
def getEventCount (dimensionName : Option String) (rows : List GARow) :
    List (Option String × ℕ) :=
  if falsyStr dimensionName then
    [(none, (rows.map (fun r => r.count)).sum)]
  else
    rows.foldl
      (fun m r => setA m (some (r.dimensionValue.getD "unknown")) r.count) []

/-- The ordered list of funnel steps of `analyze_user_journey`
(src/ga4.ts:415-422). -/
def funnelSteps : List String :=
  ["session_start", "view_item_list", "view_item", "add_to_cart",
   "begin_checkout", "purchase"]

/-- One step of the segment-value collection of `analyze_user_journey`
(src/ga4.ts:500-505): add every non-null key, first occurrence kept
(JS `Set` insertion order). -/
def addSegKey (acc : List String) (kv : Option String × ℕ) : List String :=
  match kv.1 with
  | some k => if k ∈ acc then acc else acc ++ [k]
  | none => acc

/-- `allSegmentValues`: keys collected over every step's counts in step
order (src/ga4.ts:489-506). -/
def collectSegValues (results : List (List (Option String × ℕ))) :
    List String :=
  results.foldl (fun acc m => m.foldl addSegKey acc) []

/-- The overall funnel / step-conversion loop of `analyze_user_journey`
(src/ga4.ts:509-523): `previousStepCount` starts at 0; for each step after
the first, the key `prev_to_step` gets
`prev > 0 ? ((count / prev) * 100).toFixed(2) : 0`. -/
def journeyOverallLoop (stepData : String → List (Option String × ℕ)) :
    List String → Option String → ℕ →
    List (String × ℕ) × List (String × ℚ)
  | [], _, _ => ([], [])
  | step :: rest, prevStep, previousStepCount =>
      let count := (lookupM (stepData step) none).getD 0
      let convEntry : List (String × ℚ) :=
        match prevStep with
        | some ps =>
            [(ps ++ "_to_" ++ step,
              if previousStepCount > 0 then
                toFixed2 ((count : ℚ) / (previousStepCount : ℚ) * 100)
              else 0)]
        | none => []
      let r := journeyOverallLoop stepData rest (some step) count
      ((step, count) :: r.1, convEntry ++ r.2)

/-- The segmented-funnel loop of `analyze_user_journey`
(src/ga4.ts:526-533): for each collected segment value, every funnel step
with `stepDataMap.get(step)?.get(segmentValue) ?? 0`. -/
def journeySegmentFunnels (stepData : String → List (Option String × ℕ))
    (allSegs : List String) : List (String × List (String × ℕ)) :=
  allSegs.map (fun v =>
    (v, funnelSteps.map (fun s =>
      (s, (lookupM (stepData s) (some v)).getD 0))))

/-- The `journeyResults` structure (src/ga4.ts:484-488); `segmentFunnels`
is `none` when the key was deleted for an absent `segmentBy`
(src/ga4.ts:535). -/
structure JourneyResults where
  overallFunnel : List (String × ℕ)
  overallStepConversion : List (String × ℚ)
  segmentFunnels : Option (List (String × List (String × ℕ)))

/-- The `analyze_user_journey` computation (src/ga4.ts:483-536) given the
per-step upstream responses `resp`. -/
def analyzeUserJourney (segmentBy : Option String)
    (resp : String → List GARow) : JourneyResults :=
  let stepCounts := fun s => getEventCount segmentBy (resp s)
  let allSegs :=
    if falsyStr segmentBy then []
    else collectSegValues (funnelSteps.map (fun s => stepCounts s))
  let fc := journeyOverallLoop stepCounts funnelSteps none 0
  { overallFunnel := fc.1,
    overallStepConversion := fc.2,
    segmentFunnels :=
      if falsyStr segmentBy then none
      else some (journeySegmentFunnels stepCounts allSegs) }

/-- One entry of the `calculate_cvr` output (src/ga4.ts:341-350,
src/ga4.ts:364-373). -/
structure CvrEntry where
  conversionEvents : ℕ
  baseEvents : ℕ
  cvr : ℚ
  deriving DecidableEq, Repr

/-- The `cvrResults` structure (src/ga4.ts:336); `segments` is `none` when
deleted for an absent `segmentBy` (src/ga4.ts:376). -/
structure CvrResults where
  overall : CvrEntry
  segments : Option (List (String × CvrEntry))

/-- The union-of-keys `Set` of `calculate_cvr` (src/ga4.ts:354-358):
conversion keys then base keys, first occurrence kept, `null` removed. -/
def cvrAllSegments (conversionCounts baseCounts : List (Option String × ℕ)) :
    List String :=
  ((conversionCounts.map (fun kv => kv.1)) ++
    (baseCounts.map (fun kv => kv.1))).foldl
    (fun acc k =>
      match k with
      | some v => if v ∈ acc then acc else acc ++ [v]
      | none => acc) []

/-- The `calculate_cvr` computation (src/ga4.ts:329-377) given the two
upstream responses. -/
def calculateCvr (segmentBy : Option String)
    (convRows baseRows : List GARow) : CvrResults :=
  let conversionCounts := getEventCount segmentBy convRows
  let baseCounts := getEventCount segmentBy baseRows
  let overallConversions := (lookupM conversionCounts none).getD 0
  let overallBase := (lookupM baseCounts none).getD 0
  let overall : CvrEntry :=
    { conversionEvents := overallConversions, baseEvents := overallBase,
      cvr :=
        if overallBase > 0 then
          toFixed2 ((overallConversions : ℚ) / (overallBase : ℚ) * 100)
        else 0 }
  if falsyStr segmentBy then
    { overall := overall, segments := none }
  else
    { overall := overall,
      segments := some ((cvrAllSegments conversionCounts baseCounts).map
        (fun v =>
          let segmentConversions := (lookupM conversionCounts (some v)).getD 0
          let segmentBase := (lookupM baseCounts (some v)).getD 0
          (v, { conversionEvents := segmentConversions,
                baseEvents := segmentBase,
                cvr :=
                  if segmentBase > 0 then
                    toFixed2 ((segmentConversions : ℚ) / (segmentBase : ℚ) *
                      100)
                  else 0 }))) }

/-! ### Concrete example data -/

/-- A 10-USD order (with 1/2/3 discount/shipping/tax). -/
def ordUSD : SummaryOrder :=
  { totalPrice := 10, currencyCode := "USD", totalDiscounts := 1,
    totalShipping := 2, totalTax := 3 }

/-- A 100-JPY order. -/
def ordJPY : SummaryOrder :=
  { totalPrice := 100, currencyCode := "JPY", totalDiscounts := 0,
    totalShipping := 0, totalTax := 0 }

/-- A 50-USD order (five of these make the spec's sum-250 / count-5
average example). -/
def ordFifty : SummaryOrder :=
  { totalPrice := 50, currencyCode := "USD", totalDiscounts := 0,
    totalShipping := 0, totalTax := 0 }

/-- A two-page upstream: the first page (cursor `null`) reports a next page
at cursor `c1`; the second page (cursor `c1`) is the last. -/
def twoPageUpstream : Option String → OrdersPage := fun cursor =>
  match cursor with
  | some "c1" => { orders := [ordJPY], hasNextPage := false, endCursor := none }
  | _ => { orders := [ordUSD], hasNextPage := true, endCursor := some "c1" }

/-- A 50-sales line item of product P1. -/
def itemP1 : LineItem :=
  { title := "t1", quantity := 1, originalTotal := 50, currencyCode := "USD",
    product := some { id := "P1", title := "Product One" } }

/-- A 200-sales line item of product P2. -/
def itemP2 : LineItem :=
  { title := "t2", quantity := 2, originalTotal := 200, currencyCode := "USD",
    product := some { id := "P2", title := "Product Two" } }

/-- Per-step GA4 responses where only `session_start` has (segmented) data:
segment `mobile` with count 10. -/
def mobileOnlyResp : String → List GARow := fun s =>
  if s = "session_start" then [{ dimensionValue := some "mobile", count := 10 }]
  else []

/-- Per-step GA4 responses with overall counts 100 for `session_start` and
25 for `view_item_list`. -/
def overallResp : String → List GARow := fun s =>
  if s = "session_start" then [{ dimensionValue := none, count := 100 }]
  else if s = "view_item_list" then [{ dimensionValue := none, count := 25 }]
  else []

/-- Two trend orders on 2024-05-16 (UTC) totalling 50. -/
def trendOrder1 : TrendOrder := { createdAt := 19859 * 86400, totalPrice := 30 }

/-- See `trendOrder1`. -/
def trendOrder2 : TrendOrder :=
  { createdAt := 19859 * 86400 + 100, totalPrice := 20 }

/-- The total of the `count` metric over the rows of one response — the
value of `getEventCount` without a dimension. -/
def totalCount (rows : List GARow) : ℕ :=
  (rows.map (fun r => r.count)).sum

/-- The product bucket accumulated from `itemP1` alone (fields left in
their accumulated, unreduced form so that the pipeline output matches it
definitionally). -/
def pbOne : ProductBucket :=
  { productId := "P1", productTitle := "Product One", totalQuantity := 0 + 1,
    totalSales := 0 + 50, currencyCode := "USD", orders := 0 + 1 }

/-- The trend bucket accumulated from `trendOrder1` alone (same unreduced
convention as `pbOne`). -/
def tbOne : TrendBucket :=
  { period := periodKeyAt 0 (19859 * 86400) "daily", totalSales := 0 + 30,
    orderCount := 0 + 1 }

/-! ### Helper lemmas -/

theorem lookupA_nil {β : Type} (c : String) : lookupA ([] : List (String × β)) c = none := rfl

theorem lookupA_upsert {β : Type} (k : String) (init : β) (f : β → β)
    (m : List (String × β)) (c : String) :
    lookupA (upsert k init f m) c =
      if k = c then some (f ((lookupA m c).getD init)) else lookupA m c := by
  induction m with
  | nil =>
      by_cases h : k = c <;> simp [lookupA, upsert, List.find?, h]
  | cons kv rest ih =>
      obtain ⟨k', v'⟩ := kv
      by_cases hk : k' = k
      · subst hk
        by_cases hc : k' = c <;>
          simp [lookupA, upsert, List.find?, hc]
      · by_cases hc : k' = c
        · subst hc
          have : ¬ k = k' := fun h => hk h.symm
          simp [lookupA, upsert, List.find?, hk, this]
        · have h1 : lookupA (upsert k init f ((k', v') :: rest)) c =
              lookupA (upsert k init f rest) c := by
            simp [lookupA, upsert, List.find?, hk, hc]
          have h2 : lookupA ((k', v') :: rest) c = lookupA rest c := by
            simp [lookupA, List.find?, hc]
          rw [h1, h2, ih]

theorem lookupA_cons_ne {β : Type} (k' : String) (v' : β) (m : List (String × β))
    (c : String) (h : ¬ k' = c) :
    lookupA ((k', v') :: m) c = lookupA m c := by
  simp [lookupA, List.find?, h]

/-- Projection of the summary fold: the `salesByCurrency` component is the
plain per-currency fold. -/
theorem summary_foldl_salesByCurrency (orders : List SummaryOrder)
    (s : SalesSummary) :
    (orders.foldl summaryAccum s).salesByCurrency =
      orders.foldl
        (fun m o => upsert o.currencyCode 0 (fun x => x + o.totalPrice) m)
        s.salesByCurrency := by
  induction orders generalizing s with
  | nil => rfl
  | cons o rest ih => simp [List.foldl_cons, summaryAccum, ih]

/-- Projection of the summary fold: `salesByStatus`. -/
theorem summary_foldl_salesByStatus (orders : List SummaryOrder)
    (s : SalesSummary) :
    (orders.foldl summaryAccum s).salesByStatus =
      orders.foldl
        (fun m o => upsert "other" 0 (fun x => x + o.totalPrice) m)
        s.salesByStatus := by
  induction orders generalizing s with
  | nil => rfl
  | cons o rest ih => simp [List.foldl_cons, summaryAccum, ih]

/-- Projection of the summary fold: `totalSales` accumulates the sum. -/
theorem summary_foldl_totalSales (orders : List SummaryOrder)
    (s : SalesSummary) :
    (orders.foldl summaryAccum s).totalSales =
      s.totalSales + (orders.map (fun o => o.totalPrice)).sum := by
  induction orders generalizing s with
  | nil => simp
  | cons o rest ih => simp [List.foldl_cons, summaryAccum, ih]; ring

/-- Projection of the summary fold: `totalOrders` is untouched. -/
theorem summary_foldl_totalOrders (orders : List SummaryOrder)
    (s : SalesSummary) :
    (orders.foldl summaryAccum s).totalOrders = s.totalOrders := by
  induction orders generalizing s with
  | nil => rfl
  | cons o rest ih => simp [List.foldl_cons, summaryAccum, ih]

/-- Characterisation of the per-currency fold: the bucket of a currency is
the sum of that currency's order totals, absent when no order matched. -/
theorem currencyFold_char (orders : List SummaryOrder)
    (m0 : List (String × ℚ)) (c : String) :
    lookupA (orders.foldl
      (fun m o => upsert o.currencyCode 0 (fun x => x + o.totalPrice) m) m0) c =
      (if (orders.filter (fun o => o.currencyCode = c)) = [] then lookupA m0 c
       else some ((lookupA m0 c).getD 0 +
         (((orders.filter (fun o => o.currencyCode = c)).map
           (fun o => o.totalPrice)).sum))) := by
  induction orders generalizing m0 with
  | nil => simp
  | cons o rest ih =>
      by_cases hc : o.currencyCode = c
      · have hstep : lookupA (upsert o.currencyCode 0
            (fun x => x + o.totalPrice) m0) c =
            some ((lookupA m0 c).getD 0 + o.totalPrice) := by
          rw [lookupA_upsert]; simp [hc]
        have hfil : (o :: rest).filter (fun o => o.currencyCode = c) =
            o :: rest.filter (fun o => o.currencyCode = c) := by
          simp [List.filter_cons, hc]
        rw [List.foldl_cons, ih, hstep, hfil]
        by_cases hrest : (rest.filter (fun o => o.currencyCode = c)) = []
        · simp [hrest]
        · simp only [hrest, if_false, List.map_cons, List.sum_cons,
            Option.getD_some]
          congr 1
          ring
      · have hstep : lookupA (upsert o.currencyCode 0
            (fun x => x + o.totalPrice) m0) c = lookupA m0 c := by
          rw [lookupA_upsert]; simp [hc]
        rw [List.foldl_cons, ih, hstep]
        simp [List.filter_cons, hc]

/-- The status fold keeps the single `"other"` entry once created. -/
theorem statusFold_single (orders : List SummaryOrder) (x : ℚ) :
    orders.foldl (fun m o => upsert "other" 0 (fun y => y + o.totalPrice) m)
      [("other", x)] =
      [("other", x + (orders.map (fun o => o.totalPrice)).sum)] := by
  induction orders generalizing x with
  | nil => simp
  | cons o rest ih =>
      simp only [List.foldl_cons, upsert, if_pos, List.map_cons, List.sum_cons]
      rw [ih]
      congr 2
      ring

/-- Shape of the full status fold from the empty map: empty for no orders,
the single `"other" ↦ total` entry otherwise. -/
theorem statusFold_shape (orders : List SummaryOrder) :
    orders.foldl (fun m o => upsert "other" 0 (fun y => y + o.totalPrice) m)
      [] =
      (if orders = [] then []
       else [("other", (orders.map (fun o => o.totalPrice)).sum)]) := by
  cases orders with
  | nil => simp
  | cons o rest =>
      simp only [List.foldl_cons, upsert, List.map_cons, List.sum_cons,
        if_neg (List.cons_ne_nil o rest)]
      rw [statusFold_single]
      congr 2
      ring

/-- An `upsert` adding `v` raises the sum of the map's values by `v`. -/
theorem valuesSum_upsert (k : String) (v : ℚ) (m : List (String × ℚ)) :
    ((upsert k 0 (fun x => x + v) m).map (fun kv => kv.2)).sum =
      (m.map (fun kv => kv.2)).sum + v := by
  induction m with
  | nil => simp [upsert]
  | cons kv rest ih =>
      obtain ⟨k', v'⟩ := kv
      by_cases hk : k' = k
      · simp [upsert, hk]; ring
      · simp [upsert, hk, ih]; ring

/-- The sum of the per-currency buckets is the sum of the order totals. -/
theorem valuesSum_currencyFold (orders : List SummaryOrder)
    (m0 : List (String × ℚ)) :
    ((orders.foldl
      (fun m o => upsert o.currencyCode 0 (fun x => x + o.totalPrice) m)
      m0).map (fun kv => kv.2)).sum =
      (m0.map (fun kv => kv.2)).sum +
        (orders.map (fun o => o.totalPrice)).sum := by
  induction orders generalizing m0 with
  | nil => simp
  | cons o rest ih =>
      rw [List.foldl_cons, ih, valuesSum_upsert]
      simp
      ring

/-- Characterisation of the `salesByInterval` fold: a period's bucket joins
the period key, the sum of the matching totals and the count of matching
orders. -/
theorem trendFold_char (tz : ℤ) (interval : String) (orders : List TrendOrder)
    (m0 : List (String × TrendBucket)) (c : String) :
    lookupA (orders.foldl (trendsAccum tz interval) m0) c =
      (if (orders.filter
            (fun o => periodKeyAt tz o.createdAt interval = c)) = [] then
        lookupA m0 c
       else
        some
          { period :=
              ((lookupA m0 c).getD
                { period := c, totalSales := 0, orderCount := 0 }).period,
            totalSales :=
              ((lookupA m0 c).getD
                { period := c, totalSales := 0, orderCount := 0 }).totalSales +
              (((orders.filter
                (fun o => periodKeyAt tz o.createdAt interval = c)).map
                  (fun o => o.totalPrice)).sum),
            orderCount :=
              ((lookupA m0 c).getD
                { period := c, totalSales := 0, orderCount := 0 }).orderCount +
              (orders.filter
                (fun o => periodKeyAt tz o.createdAt interval = c)).length }) := by
  induction orders generalizing m0 with
  | nil => simp
  | cons o rest ih =>
      by_cases hc : periodKeyAt tz o.createdAt interval = c
      · have hstep : lookupA (trendsAccum tz interval m0 o) c =
            some
              { period :=
                  ((lookupA m0 c).getD
                    { period := c, totalSales := 0, orderCount := 0 }).period,
                totalSales :=
                  ((lookupA m0 c).getD
                    { period := c, totalSales := 0,
                      orderCount := 0 }).totalSales + o.totalPrice,
                orderCount :=
                  ((lookupA m0 c).getD
                    { period := c, totalSales := 0,
                      orderCount := 0 }).orderCount + 1 } := by
          simp only [trendsAccum]
          rw [lookupA_upsert]
          rw [hc]
          simp only [if_pos rfl]
          cases h0 : lookupA m0 c with
          | none => simp [h0, hc]
          | some b => simp [h0]
        have hfil : (o :: rest).filter
            (fun o => periodKeyAt tz o.createdAt interval = c) =
            o :: rest.filter
              (fun o => periodKeyAt tz o.createdAt interval = c) := by
          simp [List.filter_cons, hc]
        rw [List.foldl_cons, ih, hstep, hfil]
        by_cases hrest : (rest.filter
            (fun o => periodKeyAt tz o.createdAt interval = c)) = []
        · simp [hrest]
        · simp only [hrest, if_false, List.map_cons, List.sum_cons,
            List.length_cons, Option.getD_some]
          congr 1
          simp
          constructor
          · ring
          · omega
      · have hstep : lookupA (trendsAccum tz interval m0 o) c =
            lookupA m0 c := by
          simp only [trendsAccum]
          rw [lookupA_upsert]
          simp [hc]
        rw [List.foldl_cons, ih, hstep]
        simp [List.filter_cons, hc]

theorem insertDescBy_perm {α : Type} (key : α → ℚ) (a : α) (l : List α) :
    (insertDescBy key a l).Perm (a :: l) := by
  induction l with
  | nil => simp [insertDescBy]
  | cons b t ih =>
      by_cases h : key b ≤ key a
      · simp [insertDescBy, h]
      · simp only [insertDescBy, if_neg h]
        exact (ih.cons b).trans (List.Perm.swap a b t)

theorem sortDescBy_perm {α : Type} (key : α → ℚ) (l : List α) :
    (sortDescBy key l).Perm l := by
  induction l with
  | nil => simp [sortDescBy]
  | cons a t ih =>
      exact (insertDescBy_perm key a (sortDescBy key t)).trans (ih.cons a)

theorem mem_insertDescBy {α : Type} (key : α → ℚ) (a x : α) (l : List α) :
    x ∈ insertDescBy key a l ↔ x = a ∨ x ∈ l :=
  by simpa using (insertDescBy_perm key a l).mem_iff

theorem insertDescBy_sorted {α : Type} (key : α → ℚ) (a : α) (l : List α)
    (h : l.Pairwise (fun x y => key y ≤ key x)) :
    (insertDescBy key a l).Pairwise (fun x y => key y ≤ key x) := by
  induction l with
  | nil => simp [insertDescBy]
  | cons b t ih =>
      rcases List.pairwise_cons.1 h with ⟨hb, ht⟩
      by_cases hba : key b ≤ key a
      · rw [insertDescBy, if_pos hba]
        refine List.pairwise_cons.2 ⟨?_, h⟩
        intro y hy
        rcases List.mem_cons.1 hy with rfl | hyt
        · exact hba
        · exact le_trans (hb y hyt) hba
      · rw [insertDescBy, if_neg hba]
        refine List.pairwise_cons.2 ⟨?_, ih ht⟩
        intro y hy
        rcases (mem_insertDescBy key a y t).1 hy with rfl | hyt
        · exact le_of_not_le hba
        · exact hb y hyt

theorem sortDescBy_sorted {α : Type} (key : α → ℚ) (l : List α) :
    (sortDescBy key l).Pairwise (fun x y => key y ≤ key x) := by
  induction l with
  | nil => simp [sortDescBy]
  | cons a t ih => exact insertDescBy_sorted key a _ ih

theorem insertAscBy_perm {α : Type} (key : α → String) (a : α) (l : List α) :
    (insertAscBy key a l).Perm (a :: l) := by
  induction l with
  | nil => simp [insertAscBy]
  | cons b t ih =>
      by_cases h : key a ≤ key b
      · simp [insertAscBy, h]
      · simp only [insertAscBy, if_neg h]
        exact (ih.cons b).trans (List.Perm.swap a b t)

theorem sortAscBy_perm {α : Type} (key : α → String) (l : List α) :
    (sortAscBy key l).Perm l := by
  induction l with
  | nil => simp [sortAscBy]
  | cons a t ih =>
      exact (insertAscBy_perm key a (sortAscBy key t)).trans (ih.cons a)

/-- Every value of an `upsert`-built map satisfies a predicate preserved by
the update and satisfied by the created value. -/
theorem upsert_values_pred {β : Type} (p : β → Prop) (k : String) (init : β)
    (f : β → β) (m : List (String × β))
    (hm : ∀ kv ∈ m, p kv.2) (hinit : p (f init))
    (hf : ∀ b, p b → p (f b)) :
    ∀ kv ∈ upsert k init f m, p kv.2 := by
  induction m with
  | nil =>
      intro kv hkv
      simp only [upsert, List.mem_singleton] at hkv
      subst hkv
      exact hinit
  | cons kv' rest ih =>
      intro kv hkv
      obtain ⟨k', v'⟩ := kv'
      by_cases hk : k' = k
      · simp only [upsert, if_pos hk] at hkv
        rcases List.mem_cons.1 hkv with rfl | h
        · exact hf v' (hm _ (List.mem_cons_self _ _))
        · exact hm kv (List.mem_cons_of_mem _ h)
      · simp only [upsert, if_neg hk] at hkv
        rcases List.mem_cons.1 hkv with rfl | h
        · exact hm _ (List.mem_cons_self _ _)
        · exact ih (fun kv h' => hm kv (List.mem_cons_of_mem _ h')) kv h

/-- Every product bucket counts at least one line item. -/
theorem productSalesMap_orders_pos (orders : List (List LineItem)) :
    ∀ kv ∈ productSalesMap orders, 0 < kv.2.orders := by
  have hstep : ∀ (items : List LineItem) (m : List (String × ProductBucket)),
      (∀ kv ∈ m, 0 < kv.2.orders) →
      ∀ kv ∈ items.foldl productAccumItem m, 0 < kv.2.orders := by
    intro items
    induction items with
    | nil => intro m hm; simpa using hm
    | cons item rest ih =>
        intro m hm
        rw [List.foldl_cons]
        refine ih _ ?_
        simp only [productAccumItem]
        refine upsert_values_pred (fun b => 0 < b.orders) _ _ _ m hm ?_ ?_
        · simp
        · intro b _
          simp
  have hmain : ∀ (os : List (List LineItem)) (m : List (String × ProductBucket)),
      (∀ kv ∈ m, 0 < kv.2.orders) →
      ∀ kv ∈ os.foldl (fun m items => items.foldl productAccumItem m) m,
        0 < kv.2.orders := by
    intro os
    induction os with
    | nil => intro m hm; simpa using hm
    | cons items rest ih =>
        intro m hm
        rw [List.foldl_cons]
        exact ih _ (hstep items m hm)
  intro kv hkv
  exact hmain orders [] (by simp) kv hkv

/-- Every trend bucket counts at least one order. -/
theorem salesByInterval_count_pos (tz : ℤ) (interval : String)
    (orders : List TrendOrder) :
    ∀ kv ∈ salesByInterval tz interval orders, 0 < kv.2.orderCount := by
  have hmain : ∀ (os : List TrendOrder) (m : List (String × TrendBucket)),
      (∀ kv ∈ m, 0 < kv.2.orderCount) →
      ∀ kv ∈ os.foldl (trendsAccum tz interval) m, 0 < kv.2.orderCount := by
    intro os
    induction os with
    | nil => intro m hm; simpa using hm
    | cons o rest ih =>
        intro m hm
        rw [List.foldl_cons]
        refine ih _ ?_
        simp only [trendsAccum]
        refine upsert_values_pred (fun b => 0 < b.orderCount) _ _ _ m hm ?_ ?_
        · simp
        · intro b _
          simp
  intro kv hkv
  exact hmain orders [] (by simp) kv hkv

theorem mem_foldl_addSegKey (m : List (Option String × ℕ))
    (acc : List String) (v : String) :
    v ∈ m.foldl addSegKey acc ↔ v ∈ acc ∨ some v ∈ m.map Prod.fst := by
  induction m generalizing acc with
  | nil => simp
  | cons kv rest ih =>
      rw [List.foldl_cons, ih]
      have hstep : v ∈ addSegKey acc kv ↔ v ∈ acc ∨ some v = kv.1 := by
        cases hk : kv.1 with
        | none => simp [addSegKey, hk]
        | some w =>
            by_cases hw : w ∈ acc
            · simp only [addSegKey, hk, if_pos hw]
              constructor
              · intro h; exact Or.inl h
              · rintro (h | h)
                · exact h
                · rw [Option.some_inj] at h; rw [h]; exact hw
            · simp only [addSegKey, hk, if_neg hw, List.mem_append,
                List.mem_singleton]
              constructor
              · rintro (h | h)
                · exact Or.inl h
                · exact Or.inr (by rw [h])
              · rintro (h | h)
                · exact Or.inl h
                · rw [Option.some_inj] at h; exact Or.inr h
      rw [hstep]
      simp only [List.map_cons, List.mem_cons]
      tauto

theorem mem_collectSegValues (results : List (List (Option String × ℕ)))
    (v : String) :
    v ∈ collectSegValues results ↔
      ∃ m ∈ results, some v ∈ m.map Prod.fst := by
  have hgen : ∀ (rs : List (List (Option String × ℕ))) (acc : List String),
      v ∈ rs.foldl (fun acc m => m.foldl addSegKey acc) acc ↔
        v ∈ acc ∨ ∃ m ∈ rs, some v ∈ m.map Prod.fst := by
    intro rs
    induction rs with
    | nil => simp
    | cons m rest ih =>
        intro acc
        rw [List.foldl_cons, ih, mem_foldl_addSegKey]
        simp only [List.mem_cons]
        constructor
        · rintro ((h | h) | ⟨m', hm', h⟩)
          · exact Or.inl h
          · exact Or.inr ⟨m, Or.inl rfl, h⟩
          · exact Or.inr ⟨m', Or.inr hm', h⟩
        · rintro (h | ⟨m', hm' | hm', h⟩)
          · exact Or.inl (Or.inl h)
          · subst hm'; exact Or.inl (Or.inr h)
          · exact Or.inr ⟨m', hm', h⟩
  rw [collectSegValues, hgen]
  simp

theorem mem_cvrAllSegments (cc bc : List (Option String × ℕ)) (v : String) :
    v ∈ cvrAllSegments cc bc ↔
      some v ∈ cc.map Prod.fst ∨ some v ∈ bc.map Prod.fst := by
  have hgen : ∀ (keys : List (Option String)) (acc : List String),
      v ∈ keys.foldl
        (fun acc k =>
          match k with
          | some w => if w ∈ acc then acc else acc ++ [w]
          | none => acc) acc ↔ v ∈ acc ∨ some v ∈ keys := by
    intro keys
    induction keys with
    | nil => simp
    | cons k rest ih =>
        intro acc
        rw [List.foldl_cons, ih]
        have hstep : v ∈ (match k with
            | some w => if w ∈ acc then acc else acc ++ [w]
            | none => acc) ↔ v ∈ acc ∨ some v = k := by
          cases k with
          | none => simp
          | some w =>
              by_cases hw : w ∈ acc
              · simp only [if_pos hw]
                constructor
                · exact fun h => Or.inl h
                · rintro (h | h)
                  · exact h
                  · rw [Option.some_inj] at h; rw [h]; exact hw
              · simp only [if_neg hw, List.mem_append, List.mem_singleton]
                constructor
                · rintro (h | h)
                  · exact Or.inl h
                  · exact Or.inr (by rw [h])
                · rintro (h | h)
                  · exact Or.inl h
                  · rw [Option.some_inj] at h; exact Or.inr h
        rw [hstep]
        simp only [List.mem_cons]
        tauto
  rw [cvrAllSegments, hgen]
  simp only [List.mem_append, List.not_mem_nil, false_or]

/-- Lookup in the graph of a function over a key list. -/
theorem lookupA_graph {β : Type} (g : String → β) (l : List String)
    (k : String) :
    lookupA (l.map (fun v => (v, g v))) k =
      if k ∈ l then some (g k) else none := by
  induction l with
  | nil => simp [lookupA]
  | cons v rest ih =>
      by_cases hv : v = k
      · subst hv
        simp [lookupA, List.find?]
      · have h1 : lookupA ((v, g v) :: rest.map (fun v => (v, g v))) k =
            lookupA (rest.map (fun v => (v, g v))) k :=
          lookupA_cons_ne v (g v) _ k hv
        simp only [List.map_cons]
        rw [h1, ih]
        have : (k ∈ v :: rest) ↔ k ∈ rest := by
          rw [List.mem_cons]
          constructor
          · rintro (h | h)
            · exact absurd h.symm hv
            · exact h
          · exact fun h => Or.inr h
        simp [this]

/-- `lookupM` succeeds exactly on the keys of the map. -/
theorem lookupM_isSome {α β : Type} [DecidableEq α]
    (m : List (α × β)) (k : α) :
    (lookupM m k).isSome ↔ k ∈ m.map Prod.fst := by
  induction m with
  | nil => simp [lookupM]
  | cons kv rest ih =>
      by_cases hk : kv.1 = k
      · simp [lookupM, List.find?, hk]
      · have : lookupM (kv :: rest) k = lookupM rest k := by
          simp [lookupM, List.find?, hk]
        rw [this, ih]
        simp only [List.map_cons, List.mem_cons]
        constructor
        · exact fun h => Or.inr h
        · rintro (h | h)
          · exact absurd h.symm hk
          · exact h

/-- Closed form of a `salesByInterval` bucket: key, matching-total sum and
matching-order count. -/
theorem salesByInterval_char (tz : ℤ) (interval : String)
    (orders : List TrendOrder) (c : String) :
    lookupA (salesByInterval tz interval orders) c =
      (if (orders.filter
            (fun o => periodKeyAt tz o.createdAt interval = c)) = [] then none
       else
        some
          { period := c,
            totalSales :=
              (((orders.filter
                (fun o => periodKeyAt tz o.createdAt interval = c)).map
                  (fun o => o.totalPrice)).sum),
            orderCount :=
              (orders.filter
                (fun o => periodKeyAt tz o.createdAt interval = c)).length }) := by
  rw [salesByInterval, trendFold_char]
  by_cases h : (orders.filter
      (fun o => periodKeyAt tz o.createdAt interval = c)) = []
  · simp [h, lookupA]
  · simp [h, lookupA]

theorem computeSummary_totalSales (orders : List SummaryOrder) :
    (computeSummary orders).totalSales =
      (orders.map (fun o => o.totalPrice)).sum := by
  simp [computeSummary, summary_foldl_totalSales]

theorem computeSummary_totalOrders (orders : List SummaryOrder) :
    (computeSummary orders).totalOrders = orders.length := by
  simp [computeSummary, summary_foldl_totalOrders]

theorem computeSummary_salesByCurrency (orders : List SummaryOrder) :
    (computeSummary orders).salesByCurrency =
      orders.foldl
        (fun m o => upsert o.currencyCode 0 (fun x => x + o.totalPrice) m)
        [] := by
  simp [computeSummary, summary_foldl_salesByCurrency]

theorem computeSummary_salesByStatus (orders : List SummaryOrder) :
    (computeSummary orders).salesByStatus =
      (if orders = [] then []
       else [("other", (orders.map (fun o => o.totalPrice)).sum)]) := by
  simp only [computeSummary]
  rw [summary_foldl_salesByStatus]
  exact statusFold_shape orders

theorem computeSummary_averageOrderValue (orders : List SummaryOrder) :
    (computeSummary orders).averageOrderValue =
      (if 0 < orders.length then
        (orders.map (fun o => o.totalPrice)).sum / (orders.length : ℚ)
       else 0) := by
  simp [computeSummary, summary_foldl_totalOrders, summary_foldl_totalSales]

theorem periodKeyAt_daily (tz t : ℤ) :
    periodKeyAt tz t "daily" = dateString (daysOf t) := rfl

theorem periodKeyAt_weekly (tz t : ℤ) :
    periodKeyAt tz t "weekly" =
      dateString (daysOf (t - dayOfWeek (daysOf (t + tz * 60)) * 86400)) :=
  rfl

theorem periodKeyAt_monthly (tz t : ℤ) :
    periodKeyAt tz t "monthly" = ymString (daysOf (t + tz * 60)) := rfl

/-- Shifting an instant by whole days shifts its day count by as much. -/
theorem daysOf_sub_mul (t k : ℤ) : daysOf (t - k * 86400) = daysOf t - k := by
  unfold daysOf
  omega

/-- The day obtained by stepping back by the day-of-week is a Sunday. -/
theorem dayOfWeek_back_zero (d : ℤ) : dayOfWeek (d - dayOfWeek d) = 0 := by
  unfold dayOfWeek
  omega

/-- The day-of-week offset is between 0 and 6. -/
theorem dayOfWeek_bounds (d : ℤ) : 0 ≤ dayOfWeek d ∧ dayOfWeek d < 7 := by
  unfold dayOfWeek
  omega

/-! ### Claim theorems -/

/-- C1: the claim states that the record fetch of `get_sales_summary`
follows pagination cursors until the upstream reports no further pages or a
page cap, surfacing `truncated = true` at the cap.  The code does not:
evaluated on a two-page upstream whose first page announces a next page, the
source's loop (`salesSummaryFetch`) returns only the first page's records —
its result type carries no truncation flag at all — while the spec's
Record-Source contract (`fetchAll`, modelled from §4.1) returns both pages'
records.  This theorem evaluates the code at that failing input. -/
theorem c1_pagination_single_page_eval :
    salesSummaryFetch twoPageUpstream = [ordUSD] ∧
    fetchAll twoPageUpstream 10 none =
      { records := [ordUSD, ordJPY], truncated := false } ∧
    ¬ salesSummaryFetch twoPageUpstream =
        (fetchAll twoPageUpstream 10 none).records := by
  refine ⟨rfl, rfl, fun h => ?_⟩
  have h2 : ([ordUSD] : List SummaryOrder) = [ordUSD, ordJPY] :=
    calc ([ordUSD] : List SummaryOrder)
        = salesSummaryFetch twoPageUpstream := rfl
      _ = (fetchAll twoPageUpstream 10 none).records := h
      _ = [ordUSD, ordJPY] := rfl
  exact absurd (congrArg List.length h2) (by simp)

/-- C2 counterexample: with one USD-10 and one JPY-100 order and no currency
filter, the summary reports the single number `totalSales = 110` — the
mixed-currency sum of the USD and JPY amounts — refuting the claim's "no
single mixed-currency number is reported as a total" (while
`salesByCurrency` does carry both independently). -/
theorem c2_mixed_total_counterexample :
    (computeSummary [ordUSD, ordJPY]).totalSales = 110 ∧
    (computeSummary [ordUSD, ordJPY]).salesByCurrency =
      [("USD", 10), ("JPY", 100)] ∧
    (110 : ℚ) = 10 + 100 := by
  refine ⟨?_, ?_, by norm_num⟩
  · rw [computeSummary_totalSales]
    norm_num [ordUSD, ordJPY]
  · rw [computeSummary_salesByCurrency]
    norm_num [ordUSD, ordJPY, upsert]
    decide

/-- C2 (amended): the per-currency breakdown never collapses —
`salesByCurrency` carries each currency's amount independently (a
currency's bucket is exactly the sum of that currency's order amounts,
absent when no order of that currency matched) — but the top-level
`totalSales` alongside it is the sum over all orders of all currencies, as
§4.4's "per-currency breakdown map alongside any top-level total" option
allows. -/
theorem c2_salesByCurrency_independent (orders : List SummaryOrder)
    (c : String) :
    lookupA (computeSummary orders).salesByCurrency c =
      (if (orders.filter (fun o => o.currencyCode = c)) = [] then none
       else some (((orders.filter (fun o => o.currencyCode = c)).map
         (fun o => o.totalPrice)).sum)) ∧
    (computeSummary orders).totalSales =
      (orders.map (fun o => o.totalPrice)).sum := by
  refine ⟨?_, computeSummary_totalSales orders⟩
  rw [computeSummary_salesByCurrency, currencyFold_char]
  simp [lookupA]

/-- C3 counterexample: `weekly` and `monthly` are computed from the
local-time `Date` accessors, not from UTC as the claim states.  Under a
UTC+9 process timezone (offset 540 minutes — e.g. Asia/Tokyo, this
repository's locale) the timestamp 2024-04-30T23:00:00Z (epoch second
19843·86400 + 82800) gets the monthly key `"2024-05"`, while its UTC
calendar month is 2024-04 — so the monthly key is not the `YYYY-MM` of the
UTC calendar date. -/
theorem c3_local_tz_counterexample :
    periodKeyAt 540 (19843 * 86400 + 82800) "monthly" = "2024-05" ∧
    ymString (daysOf (19843 * 86400 + 82800)) = "2024-04" ∧
    dateString (daysOf (19843 * 86400 + 82800)) = "2024-04-30" ∧
    ¬ periodKeyAt 540 (19843 * 86400 + 82800) "monthly" =
        ymString (daysOf (19843 * 86400 + 82800)) := by
  refine ⟨?_, ?_, ?_, ?_⟩ <;> decide

/-- C3 (amended): when the process timezone offset is zero (UTC), the
period keys are exactly as claimed — `daily` is the `YYYY-MM-DD` rendering
of the UTC calendar date (this holds for every offset, `toISOString` being
UTC), `weekly` is the date string of the Sunday on or before the record's
UTC date (a day with day-of-week 0, at most 6 days before), and `monthly`
is the `YYYY-MM` of the UTC calendar date; with the spec's concrete
examples at 2024-05-16T00:00:00Z, a Thursday (day-of-week 4), whose
preceding Sunday is 2024-05-12. -/
theorem c3_periodKey_utc (t : ℤ) :
    periodKeyAt 0 t "daily" = dateString (daysOf t) ∧
    periodKeyAt 0 t "monthly" = ymString (daysOf t) ∧
    periodKeyAt 0 t "weekly" =
      dateString (daysOf t - dayOfWeek (daysOf t)) ∧
    dayOfWeek (daysOf t - dayOfWeek (daysOf t)) = 0 ∧
    daysOf t - dayOfWeek (daysOf t) ≤ daysOf t ∧
    daysOf t < (daysOf t - dayOfWeek (daysOf t)) + 7 ∧
    periodKeyAt 0 (19859 * 86400) "daily" = "2024-05-16" ∧
    periodKeyAt 0 (19859 * 86400) "monthly" = "2024-05" ∧
    dayOfWeek (daysOf (19859 * 86400)) = 4 ∧
    periodKeyAt 0 (19859 * 86400) "weekly" = "2024-05-12" ∧
    dateString 19855 = "2024-05-12" ∧ dayOfWeek 19855 = 0 := by
  have ht : t + 0 * 60 = t := by ring
  refine ⟨periodKeyAt_daily 0 t, ?_, ?_, dayOfWeek_back_zero (daysOf t),
    ?_, ?_, by decide, by decide, by decide, by decide, by decide, by decide⟩
  · rw [periodKeyAt_monthly, ht]
  · rw [periodKeyAt_weekly, ht, daysOf_sub_mul]
  · have := dayOfWeek_bounds (daysOf t)
    omega
  · have := dayOfWeek_bounds (daysOf t)
    omega

/-- C6: derived averages are zero-safe across the three sites.  The
summary's `averageOrderValue` is the explicit zero when no order matched
and `totalSales / totalOrders` otherwise; every per-product bucket counts
at least one line item (so its division is well-defined) and its reported
average is the bucket's `totalSales / orders`, rounded only at the
formatting boundary; every per-period trend bucket likewise counts at
least one order with average `totalSales / orderCount`; and the spec's
concrete examples hold (sum 0 / count 0 ↦ 0, sum 250 / count 5 ↦ 50). -/
theorem c6_average_zero_safe :
    (∀ orders : List SummaryOrder,
      (orders = [] → (computeSummary orders).averageOrderValue = 0) ∧
      (orders ≠ [] →
        (computeSummary orders).averageOrderValue =
          (computeSummary orders).totalSales / (orders.length : ℚ))) ∧
    (∀ (orders : List (List LineItem)) (limit : ℕ),
      ∀ out ∈ sortedProductSales orders limit,
        ∃ b : ProductBucket, 0 < b.orders ∧ out = productFormat b ∧
          out.averageOrderValue = toFixed2 (b.totalSales / (b.orders : ℚ))) ∧
    (∀ (tz : ℤ) (interval : String) (orders : List TrendOrder),
      ∀ out ∈ sortedSalesTrends tz interval orders,
        ∃ b : TrendBucket, 0 < b.orderCount ∧ out = trendFormat b ∧
          out.averageOrderValue =
            toFixed2 (b.totalSales / (b.orderCount : ℚ))) ∧
    (computeSummary
      [ordFifty, ordFifty, ordFifty, ordFifty, ordFifty]).totalSales = 250 ∧
    (computeSummary
      [ordFifty, ordFifty, ordFifty, ordFifty,
        ordFifty]).averageOrderValue = 50 ∧
    (computeSummary []).averageOrderValue = 0 := by
  refine ⟨?_, ?_, ?_, ?_, ?_, rfl⟩
  · intro orders
    constructor
    · intro h; subst h; rfl
    · intro h
      rw [computeSummary_averageOrderValue, computeSummary_totalSales,
        if_pos (List.length_pos.2 h)]
  · intro orders limit out hout
    rw [sortedProductSales] at hout
    obtain ⟨b, hb, rfl⟩ := List.mem_map.1 hout
    have hb1 : b ∈ sortDescBy (fun b => b.totalSales)
        (valuesA (productSalesMap orders)) := List.mem_of_mem_take hb
    have hb2 : b ∈ valuesA (productSalesMap orders) :=
      (sortDescBy_perm _ _).mem_iff.1 hb1
    rw [valuesA] at hb2
    obtain ⟨kv, hkv, hkv2⟩ := List.mem_map.1 hb2
    refine ⟨b, ?_, rfl, rfl⟩
    rw [← hkv2]
    exact productSalesMap_orders_pos orders kv hkv
  · intro tz interval orders out hout
    rw [sortedSalesTrends] at hout
    obtain ⟨b, hb, rfl⟩ := List.mem_map.1 hout
    have hb2 : b ∈ valuesA (salesByInterval tz interval orders) :=
      (sortAscBy_perm _ _).mem_iff.1 hb
    rw [valuesA] at hb2
    obtain ⟨kv, hkv, hkv2⟩ := List.mem_map.1 hb2
    refine ⟨b, ?_, rfl, rfl⟩
    rw [← hkv2]
    exact salesByInterval_count_pos tz interval orders kv hkv
  · rw [computeSummary_totalSales]
    norm_num [ordFifty]
  · rw [computeSummary_averageOrderValue]
    norm_num [ordFifty]

/-- C6 witness: the three parts applied at concrete inputs — the empty
order set, the single-line-item product pipeline, and the single-order
trend pipeline. -/
theorem c6_average_zero_safe_witness :
    ((computeSummary []).averageOrderValue = 0) ∧
    (∃ b : ProductBucket, 0 < b.orders ∧
      productFormat pbOne = productFormat b ∧
      (productFormat pbOne).averageOrderValue =
        toFixed2 (b.totalSales / (b.orders : ℚ))) ∧
    (∃ b : TrendBucket, 0 < b.orderCount ∧
      trendFormat tbOne = trendFormat b ∧
      (trendFormat tbOne).averageOrderValue =
        toFixed2 (b.totalSales / (b.orderCount : ℚ))) := by
  refine ⟨(c6_average_zero_safe.1 []).1 rfl, ?_, ?_⟩
  · refine c6_average_zero_safe.2.1 [[itemP1]] 10 (productFormat pbOne) ?_
    rw [show sortedProductSales [[itemP1]] 10 = [productFormat pbOne] from
      rfl]
    exact List.mem_singleton.2 rfl
  · refine c6_average_zero_safe.2.2.1 0 "daily" [trendOrder1]
      (trendFormat tbOne) ?_
    rw [show sortedSalesTrends 0 "daily" [trendOrder1] =
      [trendFormat tbOne] from rfl]
    exact List.mem_singleton.2 rfl

/-- C7: the `SalesByProduct` output is the per-product bucket list sorted
by `totalSales` descending, truncated to the first `limit` entries, with
`limit` defaulting to 10 when the caller passes none; on the spec's
example, products with sales 50 and 200 come out as [P2(200), P1(50)] and
`limit = 1` keeps only P2. -/
theorem c7_product_sort_limit :
    (∀ (orders : List (List LineItem)) (limit : ℕ),
      ∃ l : List ProductBucket,
        l.Perm (valuesA (productSalesMap orders)) ∧
        l.Pairwise (fun a b => b.totalSales ≤ a.totalSales) ∧
        sortedProductSales orders limit = (l.take limit).map productFormat) ∧
    (∀ orders : List (List LineItem),
      getSalesByProduct none orders = sortedProductSales orders 10) ∧
    ((sortedProductSales [[itemP1, itemP2]] 10).map
      (fun p => (p.productId, p.totalSales)) = [("P2", 200), ("P1", 50)]) ∧
    ((sortedProductSales [[itemP1, itemP2]] 1).map
      (fun p => (p.productId, p.totalSales)) = [("P2", 200)]) := by
  refine ⟨?_, fun orders => rfl, ?_, ?_⟩
  · intro orders limit
    exact ⟨sortDescBy (fun b => b.totalSales)
        (valuesA (productSalesMap orders)),
      sortDescBy_perm _ _, sortDescBy_sorted _ _, rfl⟩
  · norm_num [sortedProductSales, productSalesMap, productAccumItem, upsert,
      itemP1, itemP2, itemProductId, itemProductTitle, valuesA, sortDescBy,
      insertDescBy, productFormat, toFixed2]
    decide
  · norm_num [sortedProductSales, productSalesMap, productAccumItem, upsert,
      itemP1, itemP2, itemProductId, itemProductTitle, valuesA, sortDescBy,
      insertDescBy, productFormat, toFixed2]
    decide

/-- C8: grouping is order-independent.  Permuting the input order list
leaves every bucket of the summary's per-currency map, the whole
`salesByStatus` map, the total and the order count unchanged, and permuting
the trend orders leaves every period bucket of `salesByInterval` (sum and
count) unchanged. -/
theorem c8_order_independent :
    (∀ l1 l2 : List SummaryOrder, l1.Perm l2 →
      (∀ c, lookupA (computeSummary l1).salesByCurrency c =
        lookupA (computeSummary l2).salesByCurrency c) ∧
      (computeSummary l1).salesByStatus =
        (computeSummary l2).salesByStatus ∧
      (computeSummary l1).totalSales = (computeSummary l2).totalSales ∧
      (computeSummary l1).totalOrders = (computeSummary l2).totalOrders) ∧
    (∀ (tz : ℤ) (interval : String) (l1 l2 : List TrendOrder), l1.Perm l2 →
      ∀ p, lookupA (salesByInterval tz interval l1) p =
        lookupA (salesByInterval tz interval l2) p) := by
  constructor
  · intro l1 l2 hp
    refine ⟨?_, ?_, ?_, ?_⟩
    · intro c
      rw [computeSummary_salesByCurrency, computeSummary_salesByCurrency,
        currencyFold_char, currencyFold_char]
      have hpf := hp.filter (fun o => o.currencyCode = c)
      have hsum : ((l1.filter (fun o => o.currencyCode = c)).map
          (fun o => o.totalPrice)).sum =
          ((l2.filter (fun o => o.currencyCode = c)).map
            (fun o => o.totalPrice)).sum :=
        (hpf.map (fun o => o.totalPrice)).sum_eq
      by_cases h1 : (l1.filter (fun o => o.currencyCode = c)) = []
      · have h2 : (l2.filter (fun o => o.currencyCode = c)) = [] := by
          rw [h1] at hpf
          exact hpf.symm.eq_nil
        rw [if_pos h1, if_pos h2]
      · have h2 : ¬ (l2.filter (fun o => o.currencyCode = c)) = [] := by
          intro h2
          rw [h2] at hpf
          exact h1 hpf.eq_nil
        rw [if_neg h1, if_neg h2, hsum]
    · rw [computeSummary_salesByStatus, computeSummary_salesByStatus]
      have hsum : (l1.map (fun o => o.totalPrice)).sum =
          (l2.map (fun o => o.totalPrice)).sum :=
        (hp.map (fun o => o.totalPrice)).sum_eq
      by_cases h1 : l1 = []
      · have h2 : l2 = [] := by
          rw [h1] at hp
          exact hp.symm.eq_nil
        rw [if_pos h1, if_pos h2]
      · have h2 : ¬ l2 = [] := by
          intro h2
          rw [h2] at hp
          exact h1 hp.eq_nil
        rw [if_neg h1, if_neg h2, hsum]
    · rw [computeSummary_totalSales, computeSummary_totalSales]
      exact (hp.map (fun o => o.totalPrice)).sum_eq
    · rw [computeSummary_totalOrders, computeSummary_totalOrders]
      exact hp.length_eq
  · intro tz interval l1 l2 hp p
    rw [salesByInterval_char, salesByInterval_char]
    have hpf := hp.filter (fun o => periodKeyAt tz o.createdAt interval = p)
    have hsum : ((l1.filter
        (fun o => periodKeyAt tz o.createdAt interval = p)).map
          (fun o => o.totalPrice)).sum =
        ((l2.filter (fun o => periodKeyAt tz o.createdAt interval = p)).map
          (fun o => o.totalPrice)).sum :=
      (hpf.map (fun o => o.totalPrice)).sum_eq
    by_cases h1 : (l1.filter
        (fun o => periodKeyAt tz o.createdAt interval = p)) = []
    · have h2 : (l2.filter
          (fun o => periodKeyAt tz o.createdAt interval = p)) = [] := by
        rw [h1] at hpf
        exact hpf.symm.eq_nil
      rw [if_pos h1, if_pos h2]
    · have h2 : ¬ (l2.filter
          (fun o => periodKeyAt tz o.createdAt interval = p)) = [] := by
        intro h2
        rw [h2] at hpf
        exact h1 hpf.eq_nil
      rw [if_neg h1, if_neg h2, hsum, hpf.length_eq]

/-- C8 witness: the statement applied to the concrete two-order swap (USD
then JPY against JPY then USD) and the two-trend-order swap. -/
theorem c8_order_independent_witness :
    (lookupA (computeSummary [ordUSD, ordJPY]).salesByCurrency "USD" =
      lookupA (computeSummary [ordJPY, ordUSD]).salesByCurrency "USD") ∧
    ((computeSummary [ordUSD, ordJPY]).totalSales =
      (computeSummary [ordJPY, ordUSD]).totalSales) ∧
    (lookupA (salesByInterval 0 "daily" [trendOrder1, trendOrder2])
        "2024-05-16" =
      lookupA (salesByInterval 0 "daily" [trendOrder2, trendOrder1])
        "2024-05-16") :=
  ⟨((c8_order_independent.1 [ordUSD, ordJPY] [ordJPY, ordUSD]
      (List.Perm.swap ordJPY ordUSD [])).1 "USD"),
   ((c8_order_independent.1 [ordUSD, ordJPY] [ordJPY, ordUSD]
      (List.Perm.swap ordJPY ordUSD [])).2.2.1),
   (c8_order_independent.2 0 "daily" [trendOrder1, trendOrder2]
      [trendOrder2, trendOrder1]
      (List.Perm.swap trendOrder2 trendOrder1 []) "2024-05-16")⟩

/-- C4: the segment union rule.  In `analyze_user_journey`, any segment
value observed on any step appears in the reported segment set, and its
funnel lists every step with the observed count or 0 — never omitted; the
same union rule holds for `calculate_cvr` over its two event sets; and on
the spec's concrete example (step `session_start` has `mobile ↦ 10`, every
other step has no data) the `mobile` funnel reports every later step with
count 0. -/
theorem c4_segment_union :
    (∀ (sb : String) (resp : String → List GARow) (v s : String),
      sb ≠ "" →
      (∃ s0 ∈ funnelSteps,
        some v ∈ (getEventCount (some sb) (resp s0)).map Prod.fst) →
      s ∈ funnelSteps →
      ∃ sf, (analyzeUserJourney (some sb) resp).segmentFunnels = some sf ∧
        ∃ m, lookupA sf v = some m ∧
          lookupA m s =
            some ((lookupM (getEventCount (some sb) (resp s))
              (some v)).getD 0)) ∧
    (∀ (sb : String) (convRows baseRows : List GARow) (v : String),
      sb ≠ "" →
      (some v ∈ (getEventCount (some sb) convRows).map Prod.fst ∨
        some v ∈ (getEventCount (some sb) baseRows).map Prod.fst) →
      ∃ segs, (calculateCvr (some sb) convRows baseRows).segments =
          some segs ∧
        ∃ e, lookupA segs v = some e ∧
          e.conversionEvents =
            (lookupM (getEventCount (some sb) convRows) (some v)).getD 0 ∧
          e.baseEvents =
            (lookupM (getEventCount (some sb) baseRows) (some v)).getD 0) ∧
    ((analyzeUserJourney (some "deviceCategory")
        mobileOnlyResp).segmentFunnels =
      some [("mobile",
        [("session_start", 10), ("view_item_list", 0), ("view_item", 0),
         ("add_to_cart", 0), ("begin_checkout", 0), ("purchase", 0)])]) := by
  refine ⟨?_, ?_, by decide⟩
  · intro sb resp v s hsb hobs hs
    have hfal : falsyStr (some sb) = false := by
      simp [falsyStr, hsb]
    have hsf : (analyzeUserJourney (some sb) resp).segmentFunnels =
        some (journeySegmentFunnels
          (fun st => getEventCount (some sb) (resp st))
          (collectSegValues (funnelSteps.map
            (fun st => getEventCount (some sb) (resp st))))) := by
      simp [analyzeUserJourney, hfal]
    refine ⟨_, hsf, ?_⟩
    have hv : v ∈ collectSegValues (funnelSteps.map
        (fun st => getEventCount (some sb) (resp st))) := by
      rw [mem_collectSegValues]
      obtain ⟨s0, hs0, hobs0⟩ := hobs
      exact ⟨getEventCount (some sb) (resp s0),
        List.mem_map.2 ⟨s0, hs0, rfl⟩, hobs0⟩
    rw [journeySegmentFunnels, lookupA_graph, if_pos hv]
    refine ⟨_, rfl, ?_⟩
    rw [lookupA_graph, if_pos hs]
  · intro sb convRows baseRows v hsb hobs
    have hfal : falsyStr (some sb) = false := by
      simp [falsyStr, hsb]
    have hsegs : (calculateCvr (some sb) convRows baseRows).segments =
        some ((cvrAllSegments (getEventCount (some sb) convRows)
          (getEventCount (some sb) baseRows)).map
          (fun v =>
            let segmentConversions :=
              (lookupM (getEventCount (some sb) convRows) (some v)).getD 0
            let segmentBase :=
              (lookupM (getEventCount (some sb) baseRows) (some v)).getD 0
            (v, { conversionEvents := segmentConversions,
                  baseEvents := segmentBase,
                  cvr :=
                    if segmentBase > 0 then
                      toFixed2 ((segmentConversions : ℚ) /
                        (segmentBase : ℚ) * 100)
                    else 0 }))) := by
      simp [calculateCvr, hfal]
    refine ⟨_, hsegs, ?_⟩
    have hv : v ∈ cvrAllSegments (getEventCount (some sb) convRows)
        (getEventCount (some sb) baseRows) :=
      (mem_cvrAllSegments _ _ v).2 hobs
    rw [lookupA_graph
      (fun v =>
        ({ conversionEvents :=
            (lookupM (getEventCount (some sb) convRows) (some v)).getD 0,
           baseEvents :=
            (lookupM (getEventCount (some sb) baseRows) (some v)).getD 0,
           cvr :=
            if (lookupM (getEventCount (some sb) baseRows)
                (some v)).getD 0 > 0 then
              toFixed2
                (((lookupM (getEventCount (some sb) convRows)
                  (some v)).getD 0 : ℚ) /
                  ((lookupM (getEventCount (some sb) baseRows)
                    (some v)).getD 0 : ℚ) * 100)
            else 0 } : CvrEntry)), if_pos hv]
    exact ⟨_, rfl, rfl, rfl⟩

/-- C4 witness: both parts applied at concrete inputs — the `mobile`
segment observed only on `session_start` still appears with count 0 on
`view_item_list`, and the CVR union at a one-row conversion response. -/
theorem c4_segment_union_witness :
    (∃ sf, (analyzeUserJourney (some "deviceCategory")
        mobileOnlyResp).segmentFunnels = some sf ∧
      ∃ m, lookupA sf "mobile" = some m ∧
        lookupA m "view_item_list" =
          some ((lookupM (getEventCount (some "deviceCategory")
            (mobileOnlyResp "view_item_list")) (some "mobile")).getD 0)) ∧
    (∃ segs, (calculateCvr (some "deviceCategory")
        [{ dimensionValue := some "mobile", count := 10 }] []).segments =
        some segs ∧
      ∃ e, lookupA segs "mobile" = some e ∧
        e.conversionEvents =
          (lookupM (getEventCount (some "deviceCategory")
            [{ dimensionValue := some "mobile", count := 10 }])
            (some "mobile")).getD 0 ∧
        e.baseEvents =
          (lookupM (getEventCount (some "deviceCategory")
            ([] : List GARow)) (some "mobile")).getD 0) :=
  ⟨c4_segment_union.1 "deviceCategory" mobileOnlyResp "mobile"
      "view_item_list" (by decide)
      ⟨"session_start", by decide, by decide⟩ (by decide),
   c4_segment_union.2.1 "deviceCategory"
      [{ dimensionValue := some "mobile", count := 10 }] [] "mobile"
      (by decide) (Or.inl (by decide))⟩

/-- C5: step-to-step conversion rates.  For the overall funnel, the rate
reported between consecutive steps is `count_i / count_{i-1}` as a
percentage (rounded at two decimals, the formatting boundary) when the
predecessor count is positive, and exactly 0 — with no fault — when it is
zero; the `calculate_cvr` overall entry follows the same formula; counts
100 then 25 yield 25.00%, and an all-zero funnel yields rate 0 at every
step. -/
theorem c5_conversion_rate :
    (∀ resp : String → List GARow,
      (analyzeUserJourney none resp).overallStepConversion =
        [("session_start_to_view_item_list",
          if 0 < totalCount (resp "session_start") then
            toFixed2 ((totalCount (resp "view_item_list") : ℚ) /
              (totalCount (resp "session_start") : ℚ) * 100)
          else 0),
         ("view_item_list_to_view_item",
          if 0 < totalCount (resp "view_item_list") then
            toFixed2 ((totalCount (resp "view_item") : ℚ) /
              (totalCount (resp "view_item_list") : ℚ) * 100)
          else 0),
         ("view_item_to_add_to_cart",
          if 0 < totalCount (resp "view_item") then
            toFixed2 ((totalCount (resp "add_to_cart") : ℚ) /
              (totalCount (resp "view_item") : ℚ) * 100)
          else 0),
         ("add_to_cart_to_begin_checkout",
          if 0 < totalCount (resp "add_to_cart") then
            toFixed2 ((totalCount (resp "begin_checkout") : ℚ) /
              (totalCount (resp "add_to_cart") : ℚ) * 100)
          else 0),
         ("begin_checkout_to_purchase",
          if 0 < totalCount (resp "begin_checkout") then
            toFixed2 ((totalCount (resp "purchase") : ℚ) /
              (totalCount (resp "begin_checkout") : ℚ) * 100)
          else 0)]) ∧
    (∀ convRows baseRows : List GARow,
      (calculateCvr none convRows baseRows).overall =
        { conversionEvents := totalCount convRows,
          baseEvents := totalCount baseRows,
          cvr :=
            if 0 < totalCount baseRows then
              toFixed2 ((totalCount convRows : ℚ) /
                (totalCount baseRows : ℚ) * 100)
            else 0 }) ∧
    ((analyzeUserJourney none overallResp).overallStepConversion.head? =
      some ("session_start_to_view_item_list", 25)) ∧
    ((analyzeUserJourney none (fun _ => [])).overallStepConversion =
      [("session_start_to_view_item_list", 0),
       ("view_item_list_to_view_item", 0), ("view_item_to_add_to_cart", 0),
       ("add_to_cart_to_begin_checkout", 0),
       ("begin_checkout_to_purchase", 0)]) ∧
    ((calculateCvr none [{ dimensionValue := none, count := 25 }]
      [{ dimensionValue := none, count := 100 }]).overall.cvr = 25) ∧
    ((calculateCvr none [{ dimensionValue := none, count := 25 }]
      ([] : List GARow)).overall.cvr = 0) := by
  have hloop : ∀ resp : String → List GARow,
      (analyzeUserJourney none resp).overallStepConversion =
        [("session_start_to_view_item_list",
          if 0 < totalCount (resp "session_start") then
            toFixed2 ((totalCount (resp "view_item_list") : ℚ) /
              (totalCount (resp "session_start") : ℚ) * 100)
          else 0),
         ("view_item_list_to_view_item",
          if 0 < totalCount (resp "view_item_list") then
            toFixed2 ((totalCount (resp "view_item") : ℚ) /
              (totalCount (resp "view_item_list") : ℚ) * 100)
          else 0),
         ("view_item_to_add_to_cart",
          if 0 < totalCount (resp "view_item") then
            toFixed2 ((totalCount (resp "add_to_cart") : ℚ) /
              (totalCount (resp "view_item") : ℚ) * 100)
          else 0),
         ("add_to_cart_to_begin_checkout",
          if 0 < totalCount (resp "add_to_cart") then
            toFixed2 ((totalCount (resp "begin_checkout") : ℚ) /
              (totalCount (resp "add_to_cart") : ℚ) * 100)
          else 0),
         ("begin_checkout_to_purchase",
          if 0 < totalCount (resp "begin_checkout") then
            toFixed2 ((totalCount (resp "purchase") : ℚ) /
              (totalCount (resp "begin_checkout") : ℚ) * 100)
          else 0)] := by
    intro resp
    simp [analyzeUserJourney, journeyOverallLoop, funnelSteps,
      getEventCount, falsyStr, lookupM, List.find?, totalCount]
  have hcvr : ∀ convRows baseRows : List GARow,
      (calculateCvr none convRows baseRows).overall =
        { conversionEvents := totalCount convRows,
          baseEvents := totalCount baseRows,
          cvr :=
            if 0 < totalCount baseRows then
              toFixed2 ((totalCount convRows : ℚ) /
                (totalCount baseRows : ℚ) * 100)
            else 0 } := by
    intro convRows baseRows
    simp [calculateCvr, getEventCount, falsyStr, lookupM, List.find?,
      totalCount]
  refine ⟨hloop, hcvr, ?_, ?_, ?_, ?_⟩
  · rw [hloop overallResp]
    rw [show overallResp "session_start" =
        [{ dimensionValue := none, count := 100 }] from rfl,
      show overallResp "view_item_list" =
        [{ dimensionValue := none, count := 25 }] from rfl]
    norm_num [totalCount, toFixed2]
  · rw [hloop (fun _ => [])]
    norm_num [totalCount]
  · rw [hcvr]
    norm_num [totalCount, toFixed2]
  · rw [hcvr]
    norm_num [totalCount]

/-- C9: `get_sales_trends` validation.  For every call with a missing (or
empty, JS-falsy) `startDate` or `endDate`, or an `interval` outside
{daily, weekly, monthly}, the handler fails with the code's
`ErrorCode.InvalidParams` (the spec's `InvalidArgument` kind) and issues no
upstream query — the outcome is the same constant for every upstream. -/
theorem c9_trends_validation (tz : ℤ) (args : TrendsArgs)
    (upstream : String → List TrendOrder)
    (h : falsyStr args.startDate = true ∨ falsyStr args.endDate = true ∨
      ¬ args.interval ∈ [some "daily", some "weekly", some "monthly"]) :
    getSalesTrends tz args upstream =
      { issuedQueries := [], result := .error .invalidParams } := by
  by_cases hb : (falsyStr args.startDate || falsyStr args.endDate ||
      falsyStr args.interval) = true
  · simp [getSalesTrends, hb]
  · simp only [Bool.or_eq_true, not_or, Bool.not_eq_true] at hb
    obtain ⟨⟨h1, h2⟩, h3⟩ := hb
    rcases h with h | h | h
    · rw [h1] at h; exact absurd h (by simp)
    · rw [h2] at h; exact absurd h (by simp)
    · cases hi : args.interval with
      | none => rw [hi] at h3; simp [falsyStr] at h3
      | some s =>
          have hmem : ¬ s ∈ ["daily", "weekly", "monthly"] := by
            intro hmem
            apply h
            rw [hi]
            simpa using hmem
          have hmem' : ¬ s = "daily" ∧ ¬ s = "weekly" ∧ ¬ s = "monthly" := by
            simpa using hmem
          rw [hi] at h3
          simp [getSalesTrends, h1, h2, h3, hi, hmem'.1, hmem'.2.1,
            hmem'.2.2]

/-- C9 witness: the statement applied to a concrete call with the invalid
interval `"hourly"` (and to one with a missing start date). -/
theorem c9_trends_validation_witness :
    (getSalesTrends 0
      { startDate := some "2024-05-01", endDate := some "2024-05-31",
        interval := some "hourly" } (fun _ => [trendOrder1]) =
      { issuedQueries := [], result := .error .invalidParams }) ∧
    (getSalesTrends 0
      { startDate := none, endDate := some "2024-05-31",
        interval := some "daily" } (fun _ => [trendOrder1]) =
      { issuedQueries := [], result := .error .invalidParams }) :=
  ⟨c9_trends_validation 0 _ _ (Or.inr (Or.inr (by decide))),
   c9_trends_validation 0 _ _ (Or.inl (by decide))⟩

/-- C10 counterexample: with no matching orders the summary's
`salesByStatus` is the empty map — it has no `"other"` key at all — so "maps
the single key `other` to the total" fails on the empty record set. -/
theorem c10_empty_status_counterexample :
    (computeSummary []).salesByStatus = [] ∧
    lookupA (computeSummary []).salesByStatus "other" = none ∧
    (computeSummary []).totalSales = 0 :=
  ⟨rfl, rfl, rfl⟩

/-- C10 (amended): the per-currency breakdown is conservative — the values
of `salesByCurrency` sum to exactly `totalSales` — and whenever at least one
order matched, `salesByStatus` is exactly the single entry
`"other" ↦ totalSales` (every order is classified `"other"`); with no
orders both maps are empty, the one concession the counterexample forces. -/
theorem c10_conservative_breakdown (orders : List SummaryOrder) :
    (((computeSummary orders).salesByCurrency.map (fun kv => kv.2)).sum =
      (computeSummary orders).totalSales) ∧
    (orders ≠ [] →
      (computeSummary orders).salesByStatus =
        [("other", (computeSummary orders).totalSales)]) ∧
    (orders = [] → (computeSummary orders).salesByStatus = []) := by
  refine ⟨?_, ?_, ?_⟩
  · rw [computeSummary_salesByCurrency, computeSummary_totalSales,
      valuesSum_currencyFold]
    simp
  · intro h
    rw [computeSummary_salesByStatus, computeSummary_totalSales, if_neg h]
  · intro h
    rw [computeSummary_salesByStatus, if_pos h]

/-- C10 witness: the amended statement applied at a concrete two-order
input and at the empty input. -/
theorem c10_conservative_breakdown_witness :
    ((computeSummary [ordUSD, ordJPY]).salesByStatus =
      [("other", (computeSummary [ordUSD, ordJPY]).totalSales)]) ∧
    ((computeSummary []).salesByStatus = []) :=
  ⟨(c10_conservative_breakdown [ordUSD, ordJPY]).2.1 (by simp),
   (c10_conservative_breakdown []).2.2 rfl⟩

end MCP
